import Mathlib

/-!
Shallow embedding of the core logic of the jaeger-ui TracePage module:
the view-range clamp/zoom/pan arithmetic, the subtrace guard, the
representation selection, and the ReferenceLink component.
-/

namespace TracePage

/-- Source constant VIEW_MIN_RANGE = 0.01. -/
def VIEW_MIN_RANGE : ℚ := 1/100

/-- Source constant VIEW_CHANGE_BASE = 0.005. -/
def VIEW_CHANGE_BASE : ℚ := 5/1000

/-- Source constant VIEW_CHANGE_FAST = 0.05. -/
def VIEW_CHANGE_FAST : ℚ := 5/100

/-- lodash clamp(number, lower, upper) = min(max(number, lower), upper). -/
def clamp (x lo hi : ℚ) : ℚ := min (max x lo) hi

/-- The eight named pan/zoom gestures of shortcutConfig. -/
inductive Gesture
  | panLeft | panLeftFast | panRight | panRightFast
  | zoomIn | zoomInFast | zoomOut | zoomOutFast
  deriving DecidableEq, Repr

/-- shortcutConfig: each gesture maps to a fixed (startChange, endChange) pair. -/
def shortcutConfig : Gesture → ℚ × ℚ
  | .panLeft => (-VIEW_CHANGE_BASE, -VIEW_CHANGE_BASE)
  | .panLeftFast => (-VIEW_CHANGE_FAST, -VIEW_CHANGE_FAST)
  | .panRight => (VIEW_CHANGE_BASE, VIEW_CHANGE_BASE)
  | .panRightFast => (VIEW_CHANGE_FAST, VIEW_CHANGE_FAST)
  | .zoomIn => (VIEW_CHANGE_BASE, -VIEW_CHANGE_BASE)
  | .zoomInFast => (VIEW_CHANGE_FAST, -VIEW_CHANGE_FAST)
  | .zoomOut => (-VIEW_CHANGE_BASE, VIEW_CHANGE_BASE)
  | .zoomOutFast => (-VIEW_CHANGE_FAST, VIEW_CHANGE_FAST)

/-- The computation of _adjustViewRange on the current range
(viewStart, viewEnd) with deltas (startChange, endChange): clamp both
bounds, then if the clamped width is below VIEW_MIN_RANGE, pin the end
when both deltas have the same sign, otherwise recenter a minimum-width
window at the midpoint of the old range. -/
def adjustViewRange (current : ℚ × ℚ) (startChange endChange : ℚ) : ℚ × ℚ :=
  let viewStart := current.1
  let viewEnd := current.2
  let s := clamp (viewStart + startChange) 0 (99/100)
  let e := clamp (viewEnd + endChange) (1/100) 1
  if e - s < VIEW_MIN_RANGE then
    if startChange < 0 ∧ endChange < 0 then
      (s, s + VIEW_MIN_RANGE)
    else if startChange > 0 ∧ endChange > 0 then
      (s, s + VIEW_MIN_RANGE)
    else
      let center := viewStart + (viewEnd - viewStart) / 2
      (center - VIEW_MIN_RANGE / 2, center + VIEW_MIN_RANGE / 2)
  else
    (s, e)

/-- The range invariant of the spec: 0 <= start < end <= 1 and width at
least VIEW_MIN_RANGE. -/
def ValidRange (r : ℚ × ℚ) : Prop :=
  0 ≤ r.1 ∧ r.1 < r.2 ∧ r.2 ≤ 1 ∧ VIEW_MIN_RANGE ≤ r.2 - r.1

instance (r : ℚ × ℚ) : Decidable (ValidRange r) := by
  unfold ValidRange; infer_instance

theorem clamp_le (x lo hi : ℚ) : clamp x lo hi ≤ hi := min_le_right _ _

theorem le_clamp (x lo hi : ℚ) (h : lo ≤ hi) : lo ≤ clamp x lo hi :=
  le_min (le_max_right _ _) h

/-- Generic postcondition of adjustViewRange: from any valid range, any
deltas give a result within bounds with width at least the minimum. -/
theorem adjustViewRange_bounds (r : ℚ × ℚ) (ds de : ℚ) (h : ValidRange r) :
    0 ≤ (adjustViewRange r ds de).1 ∧ (adjustViewRange r ds de).2 ≤ 1 ∧
      VIEW_MIN_RANGE ≤ (adjustViewRange r ds de).2 - (adjustViewRange r ds de).1 := by
  obtain ⟨h0, hlt, h1, hw⟩ := h
  have hw' : (1:ℚ)/100 ≤ r.2 - r.1 := hw
  have hs0 : (0:ℚ) ≤ clamp (r.1 + ds) 0 (99/100) := le_clamp _ _ _ (by norm_num)
  have hs99 : clamp (r.1 + ds) 0 (99/100) ≤ 99/100 := clamp_le _ _ _
  have he0 : (1:ℚ)/100 ≤ clamp (r.2 + de) (1/100) 1 := le_clamp _ _ _ (by norm_num)
  have he1 : clamp (r.2 + de) (1/100) 1 ≤ 1 := clamp_le _ _ _
  simp only [adjustViewRange, VIEW_MIN_RANGE]
  split_ifs with hnarrow hneg hpos <;> dsimp only <;>
    exact ⟨by linarith, by linarith, by linarith⟩

/-- Restatement of the adjust rule in the words of the spec, for the
refinement check of claim C2: clamp the two bounds, pin the end when both
deltas are negative or both positive, otherwise recenter the minimum-width
window at the midpoint of the old range. -/
def adjustViewRangeSpec (current : ℚ × ℚ) (startDelta endDelta : ℚ) : ℚ × ℚ :=
  let newStart := clamp (current.1 + startDelta) 0 (99/100)
  let newEnd := clamp (current.2 + endDelta) (1/100) 1
  if newEnd - newStart < VIEW_MIN_RANGE then
    if startDelta < 0 ∧ endDelta < 0 then
      (newStart, newStart + VIEW_MIN_RANGE)
    else if startDelta > 0 ∧ endDelta > 0 then
      (newStart, newStart + VIEW_MIN_RANGE)
    else
      let mid := (current.1 + current.2) / 2
      (mid - VIEW_MIN_RANGE / 2, mid + VIEW_MIN_RANGE / 2)
  else
    (newStart, newEnd)

/-- One zoomInFast step: adjust by the deltas of the zoomInFast gesture. -/
def zoomStep (r : ℚ × ℚ) : ℚ × ℚ :=
  adjustViewRange r (shortcutConfig .zoomInFast).1 (shortcutConfig .zoomInFast).2

/-- Iterated zoomInFast starting from the initial range (0, 1). -/
def iterZoom : Nat → ℚ × ℚ
  | 0 => (0, 1)
  | n + 1 => zoomStep (iterZoom n)

theorem iterZoom_succ (n : Nat) : iterZoom (n + 1) = zoomStep (iterZoom n) := rfl

theorem iz0 : iterZoom 0 = (0, 1) := rfl

theorem iz1 : iterZoom 1 = (1/20, 19/20) := by
  have h : iterZoom 1 = zoomStep (iterZoom 0) := iterZoom_succ 0
  rw [h, iz0]
  norm_num [zoomStep, shortcutConfig, adjustViewRange, clamp, VIEW_MIN_RANGE, VIEW_CHANGE_FAST]

theorem iz2 : iterZoom 2 = (1/10, 9/10) := by
  have h : iterZoom 2 = zoomStep (iterZoom 1) := iterZoom_succ 1
  rw [h, iz1]
  norm_num [zoomStep, shortcutConfig, adjustViewRange, clamp, VIEW_MIN_RANGE, VIEW_CHANGE_FAST]

theorem iz3 : iterZoom 3 = (3/20, 17/20) := by
  have h : iterZoom 3 = zoomStep (iterZoom 2) := iterZoom_succ 2
  rw [h, iz2]
  norm_num [zoomStep, shortcutConfig, adjustViewRange, clamp, VIEW_MIN_RANGE, VIEW_CHANGE_FAST]

theorem iz4 : iterZoom 4 = (1/5, 4/5) := by
  have h : iterZoom 4 = zoomStep (iterZoom 3) := iterZoom_succ 3
  rw [h, iz3]
  norm_num [zoomStep, shortcutConfig, adjustViewRange, clamp, VIEW_MIN_RANGE, VIEW_CHANGE_FAST]

theorem iz5 : iterZoom 5 = (1/4, 3/4) := by
  have h : iterZoom 5 = zoomStep (iterZoom 4) := iterZoom_succ 4
  rw [h, iz4]
  norm_num [zoomStep, shortcutConfig, adjustViewRange, clamp, VIEW_MIN_RANGE, VIEW_CHANGE_FAST]

theorem iz6 : iterZoom 6 = (3/10, 7/10) := by
  have h : iterZoom 6 = zoomStep (iterZoom 5) := iterZoom_succ 5
  rw [h, iz5]
  norm_num [zoomStep, shortcutConfig, adjustViewRange, clamp, VIEW_MIN_RANGE, VIEW_CHANGE_FAST]

theorem iz7 : iterZoom 7 = (7/20, 13/20) := by
  have h : iterZoom 7 = zoomStep (iterZoom 6) := iterZoom_succ 6
  rw [h, iz6]
  norm_num [zoomStep, shortcutConfig, adjustViewRange, clamp, VIEW_MIN_RANGE, VIEW_CHANGE_FAST]

theorem iz8 : iterZoom 8 = (2/5, 3/5) := by
  have h : iterZoom 8 = zoomStep (iterZoom 7) := iterZoom_succ 7
  rw [h, iz7]
  norm_num [zoomStep, shortcutConfig, adjustViewRange, clamp, VIEW_MIN_RANGE, VIEW_CHANGE_FAST]

theorem iz9 : iterZoom 9 = (9/20, 11/20) := by
  have h : iterZoom 9 = zoomStep (iterZoom 8) := iterZoom_succ 8
  rw [h, iz8]
  norm_num [zoomStep, shortcutConfig, adjustViewRange, clamp, VIEW_MIN_RANGE, VIEW_CHANGE_FAST]

theorem iz10 : iterZoom 10 = (99/200, 101/200) := by
  have h : iterZoom 10 = zoomStep (iterZoom 9) := iterZoom_succ 9
  rw [h, iz9]
  norm_num [zoomStep, shortcutConfig, adjustViewRange, clamp, VIEW_MIN_RANGE, VIEW_CHANGE_FAST]

theorem zoomStep_fix : zoomStep (99/200, 101/200) = (99/200, 101/200) := by
  norm_num [zoomStep, shortcutConfig, adjustViewRange, clamp, VIEW_MIN_RANGE, VIEW_CHANGE_FAST]

theorem iterZoom_stable (k : Nat) : iterZoom (10 + k) = (99/200, 101/200) := by
  induction k with
  | zero => exact iz10
  | succ k ih =>
      have h : iterZoom (10 + (k + 1)) = zoomStep (iterZoom (10 + k)) := iterZoom_succ (10 + k)
      rw [h, ih, zoomStep_fix]

/-- C1: for every valid current range (0 <= start < end <= 1 with width at
least MIN_RANGE) and each of the eight named gestures of shortcutConfig at
their configured magnitudes, the range produced by adjust satisfies
0 <= start <= 1, 0 <= end <= 1 and end - start >= MIN_RANGE. -/
theorem gesture_adjust_invariant (g : Gesture) (r : ℚ × ℚ) (h : ValidRange r) :
    0 ≤ (adjustViewRange r (shortcutConfig g).1 (shortcutConfig g).2).1 ∧
    (adjustViewRange r (shortcutConfig g).1 (shortcutConfig g).2).1 ≤ 1 ∧
    0 ≤ (adjustViewRange r (shortcutConfig g).1 (shortcutConfig g).2).2 ∧
    (adjustViewRange r (shortcutConfig g).1 (shortcutConfig g).2).2 ≤ 1 ∧
    VIEW_MIN_RANGE ≤ (adjustViewRange r (shortcutConfig g).1 (shortcutConfig g).2).2 -
      (adjustViewRange r (shortcutConfig g).1 (shortcutConfig g).2).1 := by
  obtain ⟨hb0, hb1, hbw⟩ := adjustViewRange_bounds r (shortcutConfig g).1 (shortcutConfig g).2 h
  have hm : VIEW_MIN_RANGE = 1/100 := rfl
  rw [hm] at hbw ⊢
  exact ⟨hb0, by linarith, by linarith, hb1, hbw⟩

theorem gesture_adjust_invariant_witness :
    ValidRange (0, 1) ∧
    (0 ≤ (adjustViewRange (0, 1) (shortcutConfig .zoomInFast).1 (shortcutConfig .zoomInFast).2).1 ∧
     (adjustViewRange (0, 1) (shortcutConfig .zoomInFast).1 (shortcutConfig .zoomInFast).2).1 ≤ 1 ∧
     0 ≤ (adjustViewRange (0, 1) (shortcutConfig .zoomInFast).1 (shortcutConfig .zoomInFast).2).2 ∧
     (adjustViewRange (0, 1) (shortcutConfig .zoomInFast).1 (shortcutConfig .zoomInFast).2).2 ≤ 1 ∧
     VIEW_MIN_RANGE ≤
       (adjustViewRange (0, 1) (shortcutConfig .zoomInFast).1 (shortcutConfig .zoomInFast).2).2 -
       (adjustViewRange (0, 1) (shortcutConfig .zoomInFast).1 (shortcutConfig .zoomInFast).2).1) :=
  ⟨by norm_num [ValidRange, VIEW_MIN_RANGE],
   gesture_adjust_invariant .zoomInFast (0, 1) (by norm_num [ValidRange, VIEW_MIN_RANGE])⟩

/-- C2: adjust computes newStart = clamp(start+startDelta, 0, 0.99) and
newEnd = clamp(end+endDelta, 0.01, 1); if newEnd - newStart < MIN_RANGE it
pins newEnd = newStart + MIN_RANGE when both deltas are negative and also
when both are positive, and otherwise yields the minimum-width window
centered at the midpoint of the old range: the source function agrees with
this description on every input. -/
theorem adjust_matches_spec (r : ℚ × ℚ) (ds de : ℚ) :
    adjustViewRange r ds de = adjustViewRangeSpec r ds de := by
  simp only [adjustViewRange, adjustViewRangeSpec]
  split_ifs <;> first
    | rfl
    | (simp only [Prod.mk.injEq]; constructor <;> ring)

/-- C7: starting from (0, 1), ten zoomInFast steps reach the minimum-width
window centered at 0.5, every later step stays there, and the start stays
strictly below the end at every step. -/
theorem zoomInFast_converges :
    iterZoom 10 = (1/2 - VIEW_MIN_RANGE / 2, 1/2 + VIEW_MIN_RANGE / 2) ∧
    (∀ k : Nat, iterZoom (10 + k) = iterZoom 10) ∧
    (∀ n : Nat, (iterZoom n).1 < (iterZoom n).2) := by
  have h10 : iterZoom 10 = (99/200, 101/200) := iz10
  refine ⟨by rw [h10]; norm_num [VIEW_MIN_RANGE], ?_, ?_⟩
  · intro k
    rw [iterZoom_stable k, h10]
  · intro n
    rcases Nat.lt_or_ge n 10 with h | h
    · interval_cases n <;>
        simp only [iz0, iz1, iz2, iz3, iz4, iz5, iz6, iz7, iz8, iz9] <;> norm_num
    · obtain ⟨k, rfl⟩ := Nat.exists_eq_add_of_le h
      rw [iterZoom_stable k]
      norm_num

/-- C8: on any range satisfying the range invariant, adjust with both
deltas zero returns the range unchanged, so repeated zero-delta calls are
idempotent on the range value. -/
theorem adjust_zero_noop (r : ℚ × ℚ) (h : ValidRange r) :
    adjustViewRange r 0 0 = r ∧ adjustViewRange (adjustViewRange r 0 0) 0 0 = r := by
  obtain ⟨h0, hlt, h1, hw⟩ := h
  have hw' : (1:ℚ)/100 ≤ r.2 - r.1 := hw
  have hs : clamp (r.1 + 0) 0 (99/100) = r.1 := by
    unfold clamp
    rw [add_zero, max_eq_left h0, min_eq_left (by linarith)]
  have he : clamp (r.2 + 0) (1/100) 1 = r.2 := by
    unfold clamp
    rw [add_zero, max_eq_left (by linarith), min_eq_left h1]
  have hone : adjustViewRange r 0 0 = r := by
    simp only [adjustViewRange]
    rw [hs, he, if_neg (not_lt.mpr hw)]
  exact ⟨hone, by rw [hone, hone]⟩

theorem adjust_zero_noop_witness :
    ValidRange (0, 1) ∧
    (adjustViewRange (0, 1) 0 0 = (0, 1) ∧
     adjustViewRange (adjustViewRange (0, 1) 0 0) 0 0 = (0, 1)) :=
  ⟨by norm_num [ValidRange, VIEW_MIN_RANGE],
   adjust_zero_noop (0, 1) (by norm_num [ValidRange, VIEW_MIN_RANGE])⟩

/-- A range-change tracking event as passed to trackRange. -/
structure TrackEvent where
  src : String
  newRange : ℚ × ℚ
  oldRange : ℚ × ℚ
  deriving DecidableEq, Repr

/-- Modelled from the spec: the IViewRangeTime shape of the TracePage types
module is not under src; it holds the committed current range plus the
provisional cursor, reframe, shiftStart and shiftEnd drag bounds. -/
structure ViewRangeTime where
  current : ℚ × ℚ
  cursor : Option ℚ := none
  reframe : Option (ℚ × ℚ) := none
  shiftStart : Option ℚ := none
  shiftEnd : Option ℚ := none
  deriving DecidableEq, Repr

/-- The IViewRange state: a time field holding the view-range time state. -/
structure IViewRange where
  time : ViewRangeTime
  deriving DecidableEq, Repr

/-- updateViewRangeTime: when a tracking source is given, emit a trackRange
event carrying the source, the new range and the old current range; then
replace the time state with one holding only the new current range. -/
def updateViewRangeTime (vr : IViewRange) (start endBound : ℚ) (trackSrc : Option String) :
    IViewRange × List TrackEvent :=
  let events : List TrackEvent :=
    match trackSrc with
    | some src => [⟨src, (start, endBound), vr.time.current⟩]
    | none => []
  ({ vr with time := { current := (start, endBound) } }, events)

/-- Modelled from the spec: the ViewRangeTimeUpdate union of the TracePage
types module is not under src; each update names exactly one provisional
field of the time state. -/
inductive ViewRangeTimeUpdate
  | cursorUpdate (v : Option ℚ)
  | reframeUpdate (anchor shift : ℚ)
  | shiftStartUpdate (v : ℚ)
  | shiftEndUpdate (v : ℚ)
  deriving DecidableEq, Repr

/-- The object-spread merge of an update into the time state. -/
def mergeTimeUpdate (t : ViewRangeTime) (u : ViewRangeTimeUpdate) : ViewRangeTime :=
  match u with
  | .cursorUpdate v => { t with cursor := v }
  | .reframeUpdate a s => { t with reframe := some (a, s) }
  | .shiftStartUpdate v => { t with shiftStart := some v }
  | .shiftEndUpdate v => { t with shiftEnd := some v }

/-- updateNextViewRangeTime: spread the partial update over the current
time state inside the view range. -/
def updateNextViewRangeTime (vr : IViewRange) (u : ViewRangeTimeUpdate) : IViewRange :=
  { vr with time := mergeTimeUpdate vr.time u }

/-- C3 counterexample: updateViewRangeTime stores the bounds exactly as
given, so the stored range can violate the clamping the claim asserts:
storing start -1/2 and end 2 keeps both out-of-range values. -/
theorem updateViewRangeTime_no_clamp_cex :
    (updateViewRangeTime ⟨⟨(0, 1), none, none, none, none⟩⟩ (-(1/2)) 2 none).1.time.current
      = (-(1/2), 2) ∧
    ¬ (0 ≤ (-(1/2) : ℚ)) ∧ ¬ ((2 : ℚ) ≤ 1) :=
  ⟨rfl, by norm_num, by norm_num⟩

/-- C3 amended: updateViewRangeTime stores the supplied bounds unchanged,
with no clamping and no minimum-width floor, and emits a tracking event
carrying the source, the new range and the old range exactly when a source
is provided. -/
theorem updateViewRangeTime_stores_and_emits (vr : IViewRange) (s e : ℚ) (src : String) :
    (updateViewRangeTime vr s e (some src)).1.time.current = (s, e) ∧
    (updateViewRangeTime vr s e (some src)).2 = [⟨src, (s, e), vr.time.current⟩] ∧
    (updateViewRangeTime vr s e none).1.time.current = (s, e) ∧
    (updateViewRangeTime vr s e none).2 = [] :=
  ⟨rfl, rfl, rfl, rfl⟩

/-- C9: updateNextViewRangeTime merges the named provisional field into the
time state, stores the supplied value verbatim with no clamping, and leaves
the committed current range and every field not named in the update
unchanged. -/
theorem updateNextViewRangeTime_merge (vr : IViewRange) (u : ViewRangeTimeUpdate) :
    (updateNextViewRangeTime vr u).time.current = vr.time.current ∧
    (∀ v, (updateNextViewRangeTime vr (.cursorUpdate v)).time.cursor = v ∧
      (updateNextViewRangeTime vr (.cursorUpdate v)).time.reframe = vr.time.reframe ∧
      (updateNextViewRangeTime vr (.cursorUpdate v)).time.shiftStart = vr.time.shiftStart ∧
      (updateNextViewRangeTime vr (.cursorUpdate v)).time.shiftEnd = vr.time.shiftEnd) ∧
    (∀ a s, (updateNextViewRangeTime vr (.reframeUpdate a s)).time.reframe = some (a, s) ∧
      (updateNextViewRangeTime vr (.reframeUpdate a s)).time.cursor = vr.time.cursor ∧
      (updateNextViewRangeTime vr (.reframeUpdate a s)).time.shiftStart = vr.time.shiftStart ∧
      (updateNextViewRangeTime vr (.reframeUpdate a s)).time.shiftEnd = vr.time.shiftEnd) ∧
    (∀ v, (updateNextViewRangeTime vr (.shiftStartUpdate v)).time.shiftStart = some v ∧
      (updateNextViewRangeTime vr (.shiftStartUpdate v)).time.cursor = vr.time.cursor ∧
      (updateNextViewRangeTime vr (.shiftStartUpdate v)).time.reframe = vr.time.reframe ∧
      (updateNextViewRangeTime vr (.shiftStartUpdate v)).time.shiftEnd = vr.time.shiftEnd) ∧
    (∀ v, (updateNextViewRangeTime vr (.shiftEndUpdate v)).time.shiftEnd = some v ∧
      (updateNextViewRangeTime vr (.shiftEndUpdate v)).time.cursor = vr.time.cursor ∧
      (updateNextViewRangeTime vr (.shiftEndUpdate v)).time.reframe = vr.time.reframe ∧
      (updateNextViewRangeTime vr (.shiftEndUpdate v)).time.shiftStart = vr.time.shiftStart) := by
  refine ⟨?_, ?_, ?_, ?_, ?_⟩
  · cases u <;> rfl
  · intro v; exact ⟨rfl, rfl, rfl, rfl⟩
  · intro a s; exact ⟨rfl, rfl, rfl, rfl⟩
  · intro v; exact ⟨rfl, rfl, rfl, rfl⟩
  · intro v; exact ⟨rfl, rfl, rfl, rfl⟩

/-- Modelled from the spec: a span of the trace types module (not under
src) with its identifier, its child-of reference to a parent span, a start
time and a duration. -/
structure Span where
  spanID : String
  parentID : Option String
  startTime : ℤ
  duration : ℤ
  deriving DecidableEq, Repr

/-- Modelled from the spec: a trace of the trace types module (not under
src): an ordered collection of spans plus trace id and overall time
bounds. -/
structure Trace where
  traceID : String
  spans : List Span
  startTime : ℤ
  endTime : ℤ
  deriving DecidableEq, Repr

/-- The display-trace selection of the render method: the subtrace when
present, else the transformed trace when present, else the original trace
data. -/
def displayedData (subtrace transformedTrace traceData : Option Trace) : Option Trace :=
  match subtrace with
  | some t => some t
  | none =>
      match transformedTrace with
      | some t => some t
      | none => traceData

/-- Modelled from the spec: closure step collecting span ids whose child-of
parent is already collected, iterated with fuel to reach the transitive
descendants of the focus span. -/
def descendantClosure (spans : List Span) (acc : List String) : Nat → List String
  | 0 => acc
  | n + 1 =>
      let next := acc ++ (spans.filter (fun s =>
        (!(acc.contains s.spanID)) &&
          (match s.parentID with
           | some p => acc.contains p
           | none => false))).map (fun s => s.spanID)
      descendantClosure spans next n

/-- Modelled from the spec: createSubtrace of the trace-subtree model
module (not under src): locate the focus span by id, fail soft to none when
absent, otherwise keep the focus span and its transitive descendants in
stable source order with the trace time bounds renormalized to the min
start and max end of the kept spans. -/
def createSubtrace (t : Trace) (focusId : String) : Option Trace :=
  match t.spans.find? (fun s => s.spanID == focusId) with
  | none => none
  | some _ =>
      let keepIds := descendantClosure t.spans [focusId] t.spans.length
      let keep := t.spans.filter (fun s => keepIds.contains s.spanID)
      some { traceID := t.traceID
             spans := keep
             startTime := ((keep.map (fun s => s.startTime)).min?).getD t.startTime
             endTime := ((keep.map (fun s => s.startTime + s.duration)).max?).getD t.endTime }

/-- createSubtraceIfNeeded: when the trace, its data and a nonempty span id
from the URL parameters are all present, derive the subtrace; otherwise set
the subtrace to null. -/
def createSubtraceIfNeeded (traceData : Option Trace) (spanId : Option String) : Option Trace :=
  match traceData, spanId with
  | some d, some sid => if sid = "" then none else createSubtrace d sid
  | _, _ => none

/-- The representation-selection slice of the page state: the selected
representation name, the stored transformed trace, the stored subtrace and
the external error log channel. -/
structure TracePageState where
  currentRepresentation : String
  transformedTrace : Option Trace
  subtrace : Option Trace
  errorLog : List String
  deriving DecidableEq, Repr

/-- A named trace representation of the config types: the dynamic
construction and application of its transformFunction source text is
modelled as one fallible function whose error value is the thrown
message. -/
structure Representation where
  name : String
  transform : Trace → Except String Trace

/-- setTraceRepresentation: with no trace data do nothing; otherwise apply
the transform to the trace data and on success store its output and the
selected name, while a thrown error only logs and leaves the state
untouched. -/
def setTraceRepresentation (traceData : Option Trace) (rep : Representation)
    (st : TracePageState) : TracePageState :=
  match traceData with
  | none => st
  | some d =>
      match rep.transform d with
      | Except.ok t => { st with currentRepresentation := rep.name, transformedTrace := some t }
      | Except.error e => { st with errorLog := st.errorLog ++ [e] }

/-- C4: the rendered trace data is the subtrace whenever it is non-null,
the transformed trace whenever it is non-null and the subtrace is null, and
the original trace data otherwise. -/
theorem display_precedence (st tt : Trace) (b c : Option Trace) :
    displayedData (some st) b c = some st ∧
    displayedData none (some tt) c = some tt ∧
    displayedData none none c = c :=
  ⟨rfl, rfl, rfl⟩

/-- C6: the subtrace derivation yields null whenever the trace data is
absent or the focus span id is absent or empty. -/
theorem createSubtraceIfNeeded_null (d : Option Trace) (sid : Option String) :
    createSubtraceIfNeeded d none = none ∧
    createSubtraceIfNeeded none sid = none ∧
    createSubtraceIfNeeded d (some "") = none := by
  refine ⟨?_, ?_, ?_⟩
  · cases d <;> rfl
  · cases sid <;> rfl
  · cases d with
    | none => rfl
    | some t => simp [createSubtraceIfNeeded]

/-- C5: a throwing transform leaves the transformed trace, the selected
name, the subtrace and hence the displayed trace unchanged while appending
the error to the log; a succeeding transform stores exactly its output and
sets the selected name. -/
theorem setTraceRepresentation_atomic (d : Trace) (rep : Representation)
    (st : TracePageState) :
    (∀ e, rep.transform d = Except.error e →
       (setTraceRepresentation (some d) rep st).transformedTrace = st.transformedTrace ∧
       (setTraceRepresentation (some d) rep st).currentRepresentation =
         st.currentRepresentation ∧
       (setTraceRepresentation (some d) rep st).subtrace = st.subtrace ∧
       displayedData (setTraceRepresentation (some d) rep st).subtrace
           (setTraceRepresentation (some d) rep st).transformedTrace (some d) =
         displayedData st.subtrace st.transformedTrace (some d) ∧
       (setTraceRepresentation (some d) rep st).errorLog = st.errorLog ++ [e]) ∧
    (∀ t, rep.transform d = Except.ok t →
       (setTraceRepresentation (some d) rep st).transformedTrace = some t ∧
       (setTraceRepresentation (some d) rep st).currentRepresentation = rep.name) := by
  constructor
  · intro e he
    have hstep : setTraceRepresentation (some d) rep st =
        { st with errorLog := st.errorLog ++ [e] } := by
      simp only [setTraceRepresentation, he]
    rw [hstep]
    exact ⟨rfl, rfl, rfl, rfl, rfl⟩
  · intro t ht
    have hstep : setTraceRepresentation (some d) rep st =
        { st with currentRepresentation := rep.name, transformedTrace := some t } := by
      simp only [setTraceRepresentation, ht]
    rw [hstep]
    exact ⟨rfl, rfl⟩

/-- A concrete one-span trace used to instantiate the stateful claims. -/
def sampleTrace : Trace := ⟨"t1", [⟨"s1", none, 0, 10⟩], 0, 10⟩

/-- A representation whose transform always throws. -/
def failingRep : Representation := ⟨"Broken", fun _ => Except.error "boom"⟩

/-- A representation whose transform succeeds with the identity. -/
def idRep : Representation := ⟨"Identity", fun t => Except.ok t⟩

/-- A page state before any representation selection. -/
def sampleState : TracePageState := ⟨"Original", none, none, []⟩

theorem setTraceRepresentation_atomic_witness :
    (setTraceRepresentation (some sampleTrace) failingRep sampleState).transformedTrace =
      sampleState.transformedTrace ∧
    (setTraceRepresentation (some sampleTrace) failingRep sampleState).currentRepresentation =
      sampleState.currentRepresentation ∧
    (setTraceRepresentation (some sampleTrace) idRep sampleState).transformedTrace =
      some sampleTrace ∧
    (setTraceRepresentation (some sampleTrace) idRep sampleState).currentRepresentation =
      idRep.name := by
  obtain ⟨hfail, hsucc⟩ := setTraceRepresentation_atomic sampleTrace failingRep sampleState
  obtain ⟨hf1, hf2, -, -, -⟩ := hfail "boom" rfl
  obtain ⟨-, hsucc2⟩ := setTraceRepresentation_atomic sampleTrace idRep sampleState
  obtain ⟨hs1, hs2⟩ := hsucc2 sampleTrace rfl
  exact ⟨hf1, hf2, hs1, hs2⟩

/-- The actions a rendered click handler performs: preventing the default
navigation, focusing a span by id, or invoking the caller-supplied onClick
prop. -/
inductive ClickAction
  | preventDefault
  | focusSpan (spanID : String)
  | callerOnClick
  deriving DecidableEq, Repr

/-- Modelled from the spec: a SpanReference of the trace types module (not
under src): the resolved span when the reference stays inside the current
trace, plus the referenced span and trace ids. -/
structure SpanReference where
  span : Option Span
  spanID : String
  traceID : String
  deriving Repr

/-- Modelled from the spec: getUrl of the TracePage url module (not under
src), building the standalone trace-page address for a trace id and span
id. -/
def getUrl (traceID spanID : String) : String :=
  "/trace/" ++ traceID ++ "/" ++ spanID

/-- The props of ReferenceLink that the rendering depends on: the reference,
the optional className and the caller-supplied optional onClick handler. -/
structure ReferenceLinkProps where
  reference : SpanReference
  className : Option String
  onClick : Option (List ClickAction)
  deriving Repr

/-- The rendered anchor element: its role, click handler semantics, href,
target, rel and className attributes. -/
structure Anchor where
  role : Option String
  onClick : Option (List ClickAction)
  href : Option String
  target : Option String
  rel : Option String
  className : Option String
  deriving Repr

/-- The statement delete otherProps.onClick: the spread props carry no
click handler regardless of the caller-supplied one. -/
def deleteOnClick (_o : Option (List ClickAction)) : Option (List ClickAction) := none

/-- ReferenceLink: with a resolved span, render an in-page anchor whose
handler prevents the default action and focuses the referenced span, the
spread props coming after the explicit handler; without one, render an
external link to getUrl with target _blank and rel noopener noreferrer. -/
def renderReferenceLink (props : ReferenceLinkProps) : Anchor :=
  let spreadOnClick := deleteOnClick props.onClick
  match props.reference.span with
  | some _ =>
      { role := some "button"
        onClick :=
          match spreadOnClick with
          | some h => some h
          | none => some [ClickAction.preventDefault,
                          ClickAction.focusSpan props.reference.spanID]
        href := none
        target := none
        rel := none
        className := props.className }
  | none =>
      { role := none
        onClick := spreadOnClick
        href := some (getUrl props.reference.traceID props.reference.spanID)
        target := some "_blank"
        rel := some "noopener noreferrer"
        className := props.className }

/-- C10: the rendered anchor never carries the caller-supplied onClick
action; with a resolved span its handler prevents the default action and
focuses the referenced span id, and without one it is an external link to
getUrl with target _blank and rel noopener noreferrer and no handler. -/
theorem referenceLink_render (p : ReferenceLinkProps) :
    (∀ acts, (renderReferenceLink p).onClick = some acts →
       ClickAction.callerOnClick ∉ acts) ∧
    (∀ sp, p.reference.span = some sp →
       (renderReferenceLink p).onClick =
         some [ClickAction.preventDefault, ClickAction.focusSpan p.reference.spanID] ∧
       (renderReferenceLink p).href = none) ∧
    (p.reference.span = none →
       (renderReferenceLink p).href = some (getUrl p.reference.traceID p.reference.spanID) ∧
       (renderReferenceLink p).target = some "_blank" ∧
       (renderReferenceLink p).rel = some "noopener noreferrer" ∧
       (renderReferenceLink p).onClick = none) := by
  obtain ⟨⟨sp, sid, tid⟩, cls, oc⟩ := p
  cases sp with
  | some s =>
      refine ⟨?_, ?_, ?_⟩
      · intro acts hacts
        simp only [renderReferenceLink, deleteOnClick] at hacts
        obtain rfl : acts = [ClickAction.preventDefault, ClickAction.focusSpan sid] :=
          (Option.some.injEq _ _ ▸ hacts).symm
        simp
      · intro sp2 hsp2
        exact ⟨rfl, rfl⟩
      · intro hnone
        exact absurd hnone (by simp)
  | none =>
      refine ⟨?_, ?_, ?_⟩
      · intro acts hacts
        simp only [renderReferenceLink, deleteOnClick] at hacts
        exact Option.noConfusion hacts
      · intro sp2 hsp2
        exact absurd hsp2 (by simp)
      · intro hnone
        exact ⟨rfl, rfl, rfl, rfl⟩

/-- Props with a resolved span, a className and a caller onClick. -/
def propsInternal : ReferenceLinkProps :=
  ⟨⟨some ⟨"s1", none, 0, 10⟩, "s1", "t1"⟩, none, some [ClickAction.callerOnClick]⟩

/-- Props without a resolved span and with a caller onClick. -/
def propsExternal : ReferenceLinkProps :=
  ⟨⟨none, "s2", "t2"⟩, none, some [ClickAction.callerOnClick]⟩

theorem referenceLink_render_witness :
    ((renderReferenceLink propsInternal).onClick =
       some [ClickAction.preventDefault, ClickAction.focusSpan "s1"] ∧
     (renderReferenceLink propsInternal).href = none) ∧
    ((renderReferenceLink propsExternal).href = some (getUrl "t2" "s2") ∧
     (renderReferenceLink propsExternal).target = some "_blank" ∧
     (renderReferenceLink propsExternal).rel = some "noopener noreferrer" ∧
     (renderReferenceLink propsExternal).onClick = none) := by
  constructor
  · exact (referenceLink_render propsInternal).2.1 ⟨"s1", none, 0, 10⟩ rfl
  · exact (referenceLink_render propsExternal).2.2 rfl

end TracePage
